import Mathlib

/-!
Verification of the MDX request-to-query compiler (`build_mdx_query`) and the
result normalizer (inside `execute_mdx`) of `src/app.py`, as a shallow
embedding: Python strings become Lean `String`, optional dictionary fields
become `Option`, Python truthiness of an optional string is modelled
explicitly, and `str.replace` / `str.startswith` / the `in` substring test are
re-implemented over `List Char` with Python semantics.
-/

namespace SSAS

/-! ## Python string primitives, modelled over `List Char` -/

/-- Predicate `isPre pat s` is true when `pat` is an initial segment of `s`
(the check behind Python `s.startswith(pat)`). -/
def isPre : List Char → List Char → Bool
  | [], _ => true
  | _ :: _, [] => false
  | a :: as, b :: bs => a == b && isPre as bs

/-- Predicate `hasSub pat s` is true when `pat` occurs contiguously inside `s`
(Python `pat in s`). -/
def hasSub (pat : List Char) : List Char → Bool
  | [] => isPre pat []
  | c :: rest => isPre pat (c :: rest) || hasSub pat rest

/-- Function `replChars pat rep s` replaces every (leftmost-first, non-overlapping)
occurrence of `pat` in `s` by `rep` — Python `s.replace(pat, rep)` for a
non-empty `pat` (the source only ever replaces non-empty literals). -/
def replChars (pat rep : List Char) : List Char → List Char
  | [] => []
  | c :: rest =>
    if isPre pat (c :: rest) = true ∧ pat ≠ [] then
      rep ++ replChars pat rep (List.drop (pat.length - 1) rest)
    else
      c :: replChars pat rep rest
termination_by l => l.length
decreasing_by
  · simp only [List.length_drop, List.length_cons]; omega
  · simp only [List.length_cons]; omega

/-- Python `s.startswith(pat)`. -/
def pyStarts (s pat : String) : Bool := isPre pat.data s.data

/-- Python `pat in s`. -/
def strHasSub (s pat : String) : Bool := hasSub pat.data s.data

/-- Python `s.replace(pat, rep)` (all occurrences). -/
def pyReplace (s pat rep : String) : String :=
  String.mk (replChars pat.data rep.data s.data)

/-- Python `s.endswith(pat)`. -/
def pyEnds (s pat : String) : Bool := isPre pat.data.reverse s.data.reverse

/-- Truthiness of an optional Python string (`None` and `""` are falsy). -/
def optTruthy : Option String → Bool
  | none => false
  | some s => s != ""

/-! ## Request model (the dictionaries handed to `build_mdx_query`) -/

/-- A dimension reference dict: a dict of keys dimension, level, and optional member.
`dimension` and `level` are the fields always set by the endpoints
(`execute_query` converts string forms into such dicts); `member` is optional. -/
structure DimRef where
  dimension : String
  level : String
  member : Option String
deriving DecidableEq

/-- The `drill_info` dict: a dict of keys dimension, member, type
(`type` defaults to `down` via the two-argument `.get`). -/
structure DrillInfo where
  dimension : String
  member : Option String
  type : String
deriving DecidableEq

/-- A filter dict; every field is read with `.get`, so each is optional.
`type` is read with default `equals`. -/
structure FilterSpec where
  dimension : Option String
  level : Option String
  value : Option String
  type : String
  min_value : Option String
  max_value : Option String
deriving DecidableEq

/-- The `sort_info` dict: optional `measure`, and `direction` read with
default `desc`. -/
structure SortInfo where
  measure : Option String
  direction : String
deriving DecidableEq

/-- The `top_n` dict: `n` read with default 10, optional `measure`. -/
structure TopNSpec where
  n : Nat
  measure : Option String
deriving DecidableEq

/-- The `show_hide` dict: optional `type` (no default), `members` read with
default empty list. -/
structure ShowHide where
  type : Option String
  members : List String
deriving DecidableEq

/-- The `aggregation_level` dict: `dimension` and `level` via `.get`. -/
structure AggLevel where
  dimension : Option String
  level : Option String
deriving DecidableEq

/-! ## Query compiler (`build_mdx_query`, src/app.py lines 211-386) -/

/-- The measure set text of lines 254 and 261-263: a brace-delimited,
comma-joined list of bracketed measure names. -/
def measuresSet (measures : List String) : String :=
  "\x7b" ++ String.intercalate ", " (measures.map (fun m => "[Measures].[" ++ m ++ "]")) ++ "\x7d"

/-- The drill navigation expression shared by both axes
(lines 229-237 and 282-289): children for `down` with a member, parent for
`up` with a member, full member set for `through` or any other case. -/
def drillExprFor (di : DrillInfo) (dim_name level : String) : String :=
  if di.type = "down" ∧ optTruthy di.member = true then
    "[" ++ dim_name ++ "].[" ++ level ++ "].&[" ++ di.member.getD "" ++ "].CHILDREN"
  else if di.type = "up" ∧ optTruthy di.member = true then
    "[" ++ dim_name ++ "].[" ++ level ++ "].&[" ++ di.member.getD "" ++ "].PARENT"
  else if di.type = "through" then
    "[" ++ dim_name ++ "].[" ++ level ++ "].MEMBERS"
  else
    "[" ++ dim_name ++ "].[" ++ level ++ "].MEMBERS"

/-- Column-axis resolution of one dimension reference (lines 220-244):
a matching `drill_info` is checked FIRST; the pinned `member` is only
consulted in the else-branch. -/
def resolveColDim (drill_info : Option DrillInfo) (d : DimRef) : String :=
  match drill_info with
  | some di =>
    if di.dimension = d.dimension then
      drillExprFor di d.dimension d.level
    else
      if optTruthy d.member = true then
        "[" ++ d.dimension ++ "].[" ++ d.level ++ "].&[" ++ d.member.getD "" ++ "]"
      else
        "[" ++ d.dimension ++ "].[" ++ d.level ++ "].MEMBERS"
  | none =>
    if optTruthy d.member = true then
      "[" ++ d.dimension ++ "].[" ++ d.level ++ "].&[" ++ d.member.getD "" ++ "]"
    else
      "[" ++ d.dimension ++ "].[" ++ d.level ++ "].MEMBERS"

/-- Row-axis resolution of one dimension reference (lines 269-291):
a pinned `member` is checked FIRST; `drill_info` only in the elif. -/
def resolveRowDim (drill_info : Option DrillInfo) (d : DimRef) : String :=
  if optTruthy d.member = true then
    "[" ++ d.dimension ++ "].[" ++ d.level ++ "].&[" ++ d.member.getD "" ++ "]"
  else
    match drill_info with
    | some di =>
      if di.dimension = d.dimension then
        drillExprFor di d.dimension d.level
      else
        "[" ++ d.dimension ++ "].[" ++ d.level ++ "].MEMBERS"
    | none => "[" ++ d.dimension ++ "].[" ++ d.level ++ "].MEMBERS"

/-- The list `dimension_members` for the column axis after the show/hide step
(lines 218-250). The replacement list reuses the loop-residual `dim_name` and
`level`, i.e. those of the LAST dimension reference. -/
def colMembers (drill_info : Option DrillInfo) (show_hide : Option ShowHide)
    (dims : List DimRef) : List String :=
  let dimension_members := dims.map (resolveColDim drill_info)
  match show_hide, dims.getLast? with
  | some sh, some last =>
    if sh.type = some "columns" ∧ sh.members ≠ [] then
      sh.members.map (fun m => "[" ++ last.dimension ++ "].[" ++ last.level ++ "].&[" ++ m ++ "]")
    else dimension_members
  | _, _ => dimension_members

/-- The list `dimension_members` for the row axis after the show/hide step
(lines 267-297); same last-dimension reuse on replacement. -/
def rowMembers (drill_info : Option DrillInfo) (show_hide : Option ShowHide)
    (dims : List DimRef) : List String :=
  let dimension_members := dims.map (resolveRowDim drill_info)
  match show_hide, dims.getLast? with
  | some sh, some last =>
    if sh.type = some "rows" ∧ sh.members ≠ [] then
      sh.members.map (fun m => "[" ++ last.dimension ++ "].[" ++ last.level ++ "].&[" ++ m ++ "]")
    else dimension_members
  | _, _ => dimension_members

/-- The `cols_str` produced for the column axis (lines 217-263). -/
def colsStr (dims : List DimRef) (measures : List String)
    (drill_info : Option DrillInfo) (show_hide : Option ShowHide) : String :=
  if dims ≠ [] then
    let dimension_members := colMembers drill_info show_hide dims
    if dimension_members ≠ [] then
      let measures_set := measuresSet measures
      match dimension_members with
      | [single] =>
        "NON EMPTY CROSSJOIN(" ++ (measures_set ++ (", " ++ (single ++ ")")))
      | _ =>
        "NON EMPTY CROSSJOIN(" ++ (measures_set ++ (", " ++
          ("CROSSJOIN(" ++ String.intercalate ", " dimension_members ++ ")" ++ ")")))
    else measuresSet measures
  else measuresSet measures

/-- The inner (unfiltered) row set: the brace-delimited set text that the
source interpolates after NON EMPTY (lines 299-303). -/
def rowsInner (drill_info : Option DrillInfo) (show_hide : Option ShowHide)
    (dims : List DimRef) : String :=
  match rowMembers drill_info show_hide dims with
  | [single] => "\x7b" ++ single ++ "\x7d"
  | dm => "\x7b" ++ ("CROSSJOIN(" ++ String.intercalate ", " dm ++ ")") ++ "\x7d"

/-- The `rows_str` before the sort and top-N steps: the NON EMPTY prefix
followed by the brace-delimited inner set (lines 299-303). -/
def rowsStrBase (drill_info : Option DrillInfo) (show_hide : Option ShowHide)
    (dims : List DimRef) : String :=
  "NON EMPTY " ++ rowsInner drill_info show_hide dims

/-- The sort step (lines 306-318): when a truthy sort measure is present and
`rows_str` starts with `"NON EMPTY"`, the prefix is stripped with
`rows_str.replace("NON EMPTY ", "")` and re-applied OUTSIDE the `ORDER`. -/
def sortRows (sort_info : Option SortInfo) (rows_str : String) : String :=
  match sort_info with
  | none => rows_str
  | some si =>
    if optTruthy si.measure = true then
      let sm := si.measure.getD ""
      let dir := si.direction.toUpper
      if pyStarts rows_str "NON EMPTY" = true then
        let inner_set := pyReplace rows_str "NON EMPTY " ""
        "NON EMPTY ORDER(" ++ (inner_set ++ (", [Measures].[" ++ (sm ++ ("], " ++ (dir ++ ")")))))
      else
        "ORDER(" ++ (rows_str ++ (", [Measures].[" ++ (sm ++ ("], " ++ (dir ++ ")")))))
    else rows_str

/-- The top-N step (lines 321-325). -/
def topNRows (top_n : Option TopNSpec) (rows_str : String) : String :=
  match top_n with
  | none => rows_str
  | some t =>
    if optTruthy t.measure = true then
      "TOPCOUNT(" ++ rows_str ++ ", " ++ toString t.n ++ ", [Measures].[" ++ t.measure.getD "" ++ "])"
    else rows_str

/-- The complete `rows_str` (lines 266-327). -/
def rowsStr (dims : List DimRef) (drill_info : Option DrillInfo)
    (sort_info : Option SortInfo) (top_n : Option TopNSpec)
    (show_hide : Option ShowHide) : String :=
  if dims ≠ [] then
    topNRows top_n (sortRows sort_info (rowsStrBase drill_info show_hide dims))
  else "\x7b[Measures].MEMBERS\x7d"

/-- The WHERE-clause fragment of one filter (lines 333-356): the whole filter is
skipped unless `dimension`, `level` AND `value` are all truthy; a `between`
additionally requires truthy `min_value` and `max_value`, and is otherwise
silently skipped (`none`). -/
def filterItem (f : FilterSpec) : Option String :=
  if optTruthy f.dimension = true ∧ optTruthy f.level = true ∧ optTruthy f.value = true then
    let d := f.dimension.getD ""
    let l := f.level.getD ""
    let v := f.value.getD ""
    if f.type = "equals" then
      some ("[" ++ d ++ "].[" ++ l ++ "].&[" ++ v ++ "]")
    else if f.type = "contains" then
      some ("FILTER([" ++ d ++ "].[" ++ l ++ "].MEMBERS, CONTAINS([" ++ d ++ "].[" ++ l ++
        "].CURRENTMEMBER.MEMBER_CAPTION, \x27" ++ v ++ "\x27))")
    else if f.type = "starts_with" then
      some ("FILTER([" ++ d ++ "].[" ++ l ++ "].MEMBERS, STARTSWITH([" ++ d ++ "].[" ++ l ++
        "].CURRENTMEMBER.MEMBER_CAPTION, \x27" ++ v ++ "\x27))")
    else if f.type = "ends_with" then
      some ("FILTER([" ++ d ++ "].[" ++ l ++ "].MEMBERS, ENDSWITH([" ++ d ++ "].[" ++ l ++
        "].CURRENTMEMBER.MEMBER_CAPTION, \x27" ++ v ++ "\x27))")
    else if f.type = "greater_than" then
      some ("FILTER([" ++ d ++ "].[" ++ l ++ "].MEMBERS, [" ++ d ++ "].[" ++ l ++
        "].CURRENTMEMBER > " ++ v ++ ")")
    else if f.type = "less_than" then
      some ("FILTER([" ++ d ++ "].[" ++ l ++ "].MEMBERS, [" ++ d ++ "].[" ++ l ++
        "].CURRENTMEMBER < " ++ v ++ ")")
    else if f.type = "between" then
      if optTruthy f.min_value = true ∧ optTruthy f.max_value = true then
        some ("FILTER([" ++ d ++ "].[" ++ l ++ "].MEMBERS, [" ++ d ++ "].[" ++ l ++
          "].CURRENTMEMBER >= " ++ f.min_value.getD "" ++ " AND [" ++ d ++ "].[" ++ l ++
          "].CURRENTMEMBER <= " ++ f.max_value.getD "" ++ ")")
      else none
    else none
  else none

/-- The WHERE clause (lines 330-359): `""` when no fragment survives. -/
def whereClause (filters : List FilterSpec) : String :=
  if filters ≠ [] then
    let filter_items := filters.filterMap filterItem
    if filter_items ≠ [] then
      " WHERE (" ++ String.intercalate ", " filter_items ++ ")"
    else ""
  else ""

/-- The aggregation-level merge into the WHERE clause (lines 362-373),
performed with `where_clause.replace(" WHERE (", ...)`. -/
def applyAggregation (aggregation_level : Option AggLevel) (where_clause : String) : String :=
  match aggregation_level with
  | none => where_clause
  | some a =>
    if optTruthy a.dimension = true ∧ optTruthy a.level = true then
      let agg_where := "[" ++ a.dimension.getD "" ++ "].[" ++ a.level.getD "" ++ "].MEMBERS"
      if where_clause ≠ "" then
        pyReplace where_clause " WHERE (" (" WHERE (" ++ agg_where ++ ", ")
      else " WHERE (" ++ agg_where ++ ")"
    else where_clause

/-- The final query template (lines 376-383). -/
def mkQuery (cols_str rows_str where_clause : String) : String :=
  "\n    SELECT \n        " ++ (cols_str ++ (" ON COLUMNS,\n        " ++
    (rows_str ++ (" ON ROWS\n    FROM \n        [DW]\n    " ++ (where_clause ++ "\n    ")))))

/-- Embedding of `build_mdx_query` (lines 211-386). Returns `none` exactly where the source
returns `None`. The unused `conditional_format` parameter is kept for fidelity.
A `filters` value of Python `None` is modelled by the empty list (both skip the
filter block). -/
def build_mdx_query (dimensions_on_rows dimensions_on_cols : List DimRef)
    (measures : List String) (filters : List FilterSpec)
    (drill_info : Option DrillInfo) (sort_info : Option SortInfo)
    (top_n : Option TopNSpec) (show_hide : Option ShowHide)
    (conditional_format : Option Unit) (aggregation_level : Option AggLevel) :
    Option String :=
  if dimensions_on_rows = [] ∧ dimensions_on_cols = [] then none
  else
    some (mkQuery
      (colsStr dimensions_on_cols measures drill_info show_hide)
      (rowsStr dimensions_on_rows drill_info sort_info top_n show_hide)
      (applyAggregation aggregation_level (whereClause filters)))

/-- The use the `/api/query` endpoint makes of the compiler (lines 484-487): the list
of query texts handed to `execute_mdx`. A falsy `mdx_query` (Python
`if not mdx_query`) short-circuits into the error response with no execution. -/
def executedQueries (dimensions_on_rows dimensions_on_cols : List DimRef)
    (measures : List String) (filters : List FilterSpec)
    (drill_info : Option DrillInfo) (sort_info : Option SortInfo)
    (top_n : Option TopNSpec) (show_hide : Option ShowHide)
    (conditional_format : Option Unit) (aggregation_level : Option AggLevel) :
    List String :=
  match build_mdx_query dimensions_on_rows dimensions_on_cols measures filters
      drill_info sort_info top_n show_hide conditional_format aggregation_level with
  | none => []
  | some q => if q.isEmpty then [] else [q]

/-- The measure defaulting of the `/api/query` endpoint (line 437), reading
the `measures` key with default `["Total Item Price"]` — the default applies
only when the key is ABSENT, not when the list is empty. -/
def requestMeasures (payload_measures : Option (List String)) : List String :=
  payload_measures.getD ["Total Item Price"]

/-! ## Result normalizer (inside `execute_mdx`, src/app.py lines 154-183) -/

/-- A cell of the raw table: string captions, numeric measure values, or
null (`None`/`NaN`). -/
inductive Value where
  | null : Value
  | str : String → Value
  | num : Int → Value
deriving DecidableEq

/-- The DataFrame built from the fetched rows: an ordered column list and
row-major cells (each row aligned positionally with `columns`). -/
structure Table where
  columns : List String
  rows : List (List Value)
deriving DecidableEq

/-- Python substring test `"[Measures]" in col` (line 160). -/
def isMeasureCol (col : String) : Bool := strHasSub col "[Measures]"

/-- Python `col.endswith(".[MEMBER_CAPTION]")` (line 166). -/
def capCol (col : String) : Bool := pyEnds col ".[MEMBER_CAPTION]"

/-- Effect of `df[col].fillna(0)` on one cell (line 162). -/
def fillMeasure (v : Value) : Value :=
  match v with
  | Value.null => Value.num 0
  | x => x

/-- The lambda of line 170: "Total" if the cell equals "Unknown", else the cell. -/
def relabelUnknown (v : Value) : Value :=
  if v = Value.str "Unknown" then Value.str "Total" else v

/-- The per-cell effect of the column loop (lines 159-170) on a non-first row. -/
def normCell (col : String) (v : Value) : Value :=
  if isMeasureCol col = true then fillMeasure v else relabelUnknown v

/-- The per-cell effect of the column loop on the FIRST row: a null first
value of a `.[MEMBER_CAPTION]` column is set to `"Total"` (lines 166-167)
before the `"Unknown"` relabeling pass runs over the column. -/
def normFirstCell (col : String) (v : Value) : Value :=
  if isMeasureCol col = true then fillMeasure v
  else relabelUnknown (if capCol col = true ∧ v = Value.null then Value.str "Total" else v)

/-- The fill/relabel pass (lines 159-170). On a zero-row table the check
`df[col].iloc[0] is None` raises `IndexError` for any caption column, which
the surrounding `except` turns into an error response: modelled as `none`. -/
def fillAndRelabel (t : Table) : Option Table :=
  match t.rows with
  | [] =>
    if t.columns.any (fun c => !(isMeasureCol c) && capCol c) then none
    else some t
  | r0 :: rest =>
    some ⟨t.columns,
          (List.zipWith normFirstCell t.columns r0) ::
            rest.map (fun r => List.zipWith normCell t.columns r)⟩

/-- One row of `unknown_mask` (line 177): all dimension-column cells equal
`"Unknown"`. -/
def rowAllUnknown (cols : List String) (r : List Value) : Bool :=
  ((cols.zip r).filter (fun p => !(isMeasureCol p.1))).all
    (fun p => p.2 == Value.str "Unknown")

/-- The vacuous-row suppression step (lines 172-180). -/
def suppressRows (t : Table) : Table :=
  if t.rows.length > 1 then
    let dimension_cols := t.columns.filter (fun c => !(isMeasureCol c))
    if dimension_cols ≠ [] then
      let unknown_mask := t.rows.map (rowAllUnknown t.columns)
      if unknown_mask.count false > 0 then
        ⟨t.columns,
         (t.rows.zip unknown_mask).filterMap
           (fun p => if p.2 = true then none else some p.1)⟩
      else t
    else t
  else t

/-- The whole normalization performed by `execute_mdx` on the fetched table. -/
def normalizeTable (t : Table) : Option Table :=
  (fillAndRelabel t).map suppressRows

/-- Cell access with the defaults irrelevant in-range. -/
def cellD (t : Table) (j i : Nat) : Value :=
  (t.rows.getD j []).getD i Value.null

/-! ## Helper lemmas about the string primitives -/

theorem str_data_append (a b : String) : (a ++ b).data = a.data ++ b.data := rfl

theorem isPre_append_self (p : List Char) : ∀ t, isPre p (p ++ t) = true := by
  induction p with
  | nil => intro t; rfl
  | cons a as ih => intro t; simp [isPre, ih]

theorem isPre_mono (p : List Char) :
    ∀ x y, isPre p x = true → isPre p (x ++ y) = true := by
  induction p with
  | nil => intro x y _; rfl
  | cons a as ih =>
    intro x y h
    cases x with
    | nil => simp [isPre] at h
    | cons b bs =>
      simp only [isPre, Bool.and_eq_true, beq_iff_eq] at h
      simp [isPre, h.1, ih bs y h.2]

theorem isPre_nil_true (p : List Char) (h : isPre p [] = true) : p = [] := by
  cases p with
  | nil => rfl
  | cons a as => simp [isPre] at h

theorem hasSub_append_right (p : List Char) :
    ∀ a b, hasSub p b = true → hasSub p (a ++ b) = true := by
  intro a
  induction a with
  | nil => intro b h; simpa using h
  | cons c cs ih =>
    intro b h
    simp only [List.cons_append, hasSub, Bool.or_eq_true]
    exact Or.inr (ih b h)

theorem hasSub_append_left (p : List Char) :
    ∀ a b, hasSub p a = true → hasSub p (a ++ b) = true := by
  intro a
  induction a with
  | nil =>
    intro b h
    simp only [hasSub] at h
    have hp := isPre_nil_true p h
    subst hp
    cases b with
    | nil => simp [hasSub, isPre]
    | cons c cs => simp [hasSub, isPre]
  | cons c cs ih =>
    intro b h
    simp only [hasSub, Bool.or_eq_true] at h
    simp only [List.cons_append, hasSub, Bool.or_eq_true]
    cases h with
    | inl h => exact Or.inl (isPre_mono p (c :: cs) b h)
    | inr h => exact Or.inr (ih b h)

theorem strHasSub_append_left (a b p : String) (h : strHasSub a p = true) :
    strHasSub (a ++ b) p = true := by
  simpa [strHasSub, str_data_append] using hasSub_append_left p.data a.data b.data h

theorem strHasSub_append_right (a b p : String) (h : strHasSub b p = true) :
    strHasSub (a ++ b) p = true := by
  simpa [strHasSub, str_data_append] using hasSub_append_right p.data a.data b.data h

theorem replChars_no_occur (pat rep : List Char) :
    ∀ s, hasSub pat s = false → replChars pat rep s = s := by
  intro s
  induction s with
  | nil => intro _; rw [replChars]
  | cons c rest ih =>
    intro h
    simp only [hasSub, Bool.or_eq_false_iff] at h
    rw [replChars, if_neg, ih h.2]
    intro hc
    rw [hc.1] at h
    exact absurd h.1 (by simp)

theorem replChars_strip (pat : List Char) (hp : pat ≠ []) (s : List Char) :
    replChars pat [] (pat ++ s) = replChars pat [] s := by
  cases pat with
  | nil => exact absurd rfl hp
  | cons c pt =>
    rw [List.cons_append, replChars, if_pos]
    · simp only [List.nil_append, List.length_cons, Nat.add_sub_cancel]
      rw [List.drop_left]
    · constructor
      · rw [← List.cons_append]; exact isPre_append_self (c :: pt) s
      · simp

theorem string_mk_data (s : String) : String.mk s.data = s := rfl

theorem pyReplace_strip_nonEmpty (s : String)
    (h : hasSub "NON EMPTY ".data s.data = false) :
    pyReplace ("NON EMPTY " ++ s) "NON EMPTY " "" = s := by
  show String.mk (replChars "NON EMPTY ".data "".data ("NON EMPTY " ++ s).data) = s
  rw [str_data_append]
  show String.mk (replChars "NON EMPTY ".data [] ("NON EMPTY ".data ++ s.data)) = s
  rw [replChars_strip "NON EMPTY ".data (by decide) s.data,
      replChars_no_occur _ _ _ h, string_mk_data]

theorem pyStarts_append (p s : String) (t : String)
    (hp : s.data = p.data ++ t.data) : pyStarts s p = true := by
  simp only [pyStarts, hp]
  exact isPre_append_self p.data t.data

/-! ## Helper lemmas about lists and the normalizer -/

theorem getD_of_lt {α : Type} (l : List α) (i : Nat) (d : α) (h : i < l.length) :
    l.getD i d = l.get ⟨i, h⟩ := by
  induction l generalizing i with
  | nil => simp at h
  | cons a as ih =>
    cases i with
    | zero => rfl
    | succ k => exact ih k (by simpa using h)

theorem getD_zipWith {α β γ : Type} (f : α → β → γ) (as : List α) (bs : List β)
    (i : Nat) (d : γ) (da : α) (db : β) (ha : i < as.length) (hb : i < bs.length) :
    (List.zipWith f as bs).getD i d = f (as.getD i da) (bs.getD i db) := by
  induction as generalizing bs i with
  | nil => simp at ha
  | cons a as ih =>
    cases bs with
    | nil => simp at hb
    | cons b bs =>
      cases i with
      | zero => rfl
      | succ k =>
        simp only [List.zipWith_cons_cons, List.getD_cons_succ]
        exact ih bs k (by simpa using ha) (by simpa using hb)

theorem getD_map {α β : Type} (f : α → β) (l : List α) (i : Nat) (d : β) (da : α)
    (h : i < l.length) : (l.map f).getD i d = f (l.getD i da) := by
  induction l generalizing i with
  | nil => simp at h
  | cons a as ih =>
    cases i with
    | zero => rfl
    | succ k => exact ih k (by simpa using h)

theorem relabelUnknown_ne (v : Value) : relabelUnknown v ≠ Value.str "Unknown" := by
  unfold relabelUnknown
  by_cases h : v = Value.str "Unknown"
  · simp [h]
  · simp [h]

theorem normCell_ne (c : String) (v : Value) (hc : isMeasureCol c = false) :
    normCell c v ≠ Value.str "Unknown" := by
  simp only [normCell, hc]
  simp only [Bool.false_eq_true, if_false]
  exact relabelUnknown_ne v

theorem normFirstCell_ne (c : String) (v : Value) (hc : isMeasureCol c = false) :
    normFirstCell c v ≠ Value.str "Unknown" := by
  simp only [normFirstCell, hc]
  simp only [Bool.false_eq_true, if_false]
  exact relabelUnknown_ne _

theorem rowAllUnknown_zipWith (g : String → Value → Value)
    (hg : ∀ c v, isMeasureCol c = false → g c v ≠ Value.str "Unknown") :
    ∀ (cols : List String) (r : List Value), r.length = cols.length →
      cols.filter (fun c => !(isMeasureCol c)) ≠ [] →
      rowAllUnknown cols (List.zipWith g cols r) = false := by
  intro cols
  induction cols with
  | nil => intro r _ hne; simp at hne
  | cons c cs ih =>
    intro r hlen hne
    cases r with
    | nil => simp at hlen
    | cons v vs =>
      by_cases hm : isMeasureCol c = true
      · have hne2 : cs.filter (fun c => !(isMeasureCol c)) ≠ [] := by
          simpa [List.filter_cons, hm] using hne
        have := ih vs (by simpa using hlen) hne2
        simpa [rowAllUnknown, List.zipWith_cons_cons, List.filter_cons, hm] using this
      · have hm2 : isMeasureCol c = false := by
          cases h : isMeasureCol c
          · rfl
          · exact absurd h hm
        have hne3 : (g c v == Value.str "Unknown") = false := by
          have := hg c v hm2
          simpa using this
        simp [rowAllUnknown, List.zipWith_cons_cons, List.filter_cons, hm2, hne3]

theorem zip_map_false_filterMap {α : Type} (f : α → Bool) :
    ∀ (l : List α), (∀ x ∈ l, f x = false) →
      (l.zip (l.map f)).filterMap (fun p => if p.2 = true then none else some p.1) = l := by
  intro l
  induction l with
  | nil => intro _; rfl
  | cons a as ih =>
    intro h
    have ha : f a = false := h a (List.mem_cons_self a as)
    simp only [List.map_cons, List.zip_cons_cons, List.filterMap_cons, ha]
    simp only [Bool.false_eq_true, if_false]
    rw [ih (fun x hx => h x (List.mem_cons_of_mem a hx))]

theorem count_false_of_all_false :
    ∀ (l : List Bool), (∀ x ∈ l, x = false) → l.count false = l.length := by
  intro l
  induction l with
  | nil => intro _; rfl
  | cons a as ih =>
    intro h
    have ha : a = false := h a (List.mem_cons_self a as)
    subst ha
    simp only [List.count_cons, List.length_cons, if_pos rfl]
    rw [ih (fun x hx => h x (List.mem_cons_of_mem _ hx))]
    simp

/-- If every row of `t` fails the all-Unknown test, suppression keeps `t`. -/
theorem suppress_of_all_false (t : Table)
    (h : ∀ r ∈ t.rows, rowAllUnknown t.columns r = false) : suppressRows t = t := by
  unfold suppressRows
  by_cases h1 : t.rows.length > 1
  · rw [if_pos h1]
    by_cases h2 : t.columns.filter (fun c => !(isMeasureCol c)) ≠ []
    · rw [if_pos h2]
      have hmask : ∀ x ∈ t.rows.map (rowAllUnknown t.columns), x = false := by
        intro x hx
        obtain ⟨r, hr, hmap⟩ := List.mem_map.mp hx
        rw [← hmap]; exact h r hr
      have hcount : (t.rows.map (rowAllUnknown t.columns)).count false > 0 := by
        rw [count_false_of_all_false _ hmask]
        simpa using Nat.lt_trans Nat.zero_lt_one h1
      rw [if_pos hcount]
      have := zip_map_false_filterMap (rowAllUnknown t.columns) t.rows h
      cases t with
      | mk columns rows => simpa using this
    · rw [if_neg h2]
  · rw [if_neg h1]

/-- When no dimension column exists, the suppression guard fails and the
table passes through unchanged. -/
theorem suppress_of_no_dim_cols (t : Table)
    (h : t.columns.filter (fun c => !(isMeasureCol c)) = []) : suppressRows t = t := by
  unfold suppressRows
  by_cases h1 : t.rows.length > 1
  · rw [if_pos h1, if_neg (by simp [h])]
  · rw [if_neg h1]

/-- Pass `fillAndRelabel` preserves the column list. -/
theorem fillAndRelabel_columns (t u : Table) (h : fillAndRelabel t = some u) :
    u.columns = t.columns := by
  unfold fillAndRelabel at h
  cases htr : t.rows with
  | nil =>
    rw [htr] at h
    by_cases hany : t.columns.any (fun c => !(isMeasureCol c) && capCol c) = true
    · simp [hany] at h
    · simp only [hany] at h
      simp only [Bool.false_eq_true, if_false, Option.some.injEq] at h
      rw [← h]
  | cons r0 rest =>
    rw [htr] at h
    simp only [Option.some.injEq] at h
    rw [← h]

/-- After the fill/relabel pass on a rectangular table, suppression is the
identity on the result: either there is no dimension column (guard fails),
or no relabeled row can still be all-`"Unknown"`. -/
theorem suppress_fillAndRelabel (t u : Table)
    (hrect : ∀ r ∈ t.rows, r.length = t.columns.length)
    (h : fillAndRelabel t = some u) : suppressRows u = u := by
  have hcols := fillAndRelabel_columns t u h
  by_cases hdim : t.columns.filter (fun c => !(isMeasureCol c)) = []
  · exact suppress_of_no_dim_cols u (by rw [hcols]; exact hdim)
  · apply suppress_of_all_false
    intro r hr
    rw [hcols]
    unfold fillAndRelabel at h
    cases htr : t.rows with
    | nil =>
      rw [htr] at h
      by_cases hany : t.columns.any (fun c => !(isMeasureCol c) && capCol c) = true
      · simp [hany] at h
      · simp only [hany] at h
        simp only [Bool.false_eq_true, if_false, Option.some.injEq] at h
        subst h
        rw [htr] at hr
        simp at hr
    | cons r0 rest =>
      rw [htr] at h
      simp only [Option.some.injEq] at h
      subst h
      simp only [List.mem_cons] at hr
      cases hr with
      | inl hr0 =>
        subst hr0
        exact rowAllUnknown_zipWith normFirstCell normFirstCell_ne t.columns r0
          (hrect r0 (htr ▸ List.mem_cons_self r0 rest)) hdim
      | inr hmem =>
        obtain ⟨r1, hr1, hmap⟩ := List.mem_map.mp hmem
        subst hmap
        exact rowAllUnknown_zipWith normCell normCell_ne t.columns r1
          (hrect r1 (htr ▸ List.mem_cons_of_mem r0 hr1)) hdim

/-- Pass `fillAndRelabel` preserves the number of rows. -/
theorem fillAndRelabel_length (t u : Table) (h : fillAndRelabel t = some u) :
    u.rows.length = t.rows.length := by
  unfold fillAndRelabel at h
  cases htr : t.rows with
  | nil =>
    rw [htr] at h
    by_cases hany : t.columns.any (fun c => !(isMeasureCol c) && capCol c) = true
    · simp [hany] at h
    · simp only [hany] at h
      simp only [Bool.false_eq_true, if_false, Option.some.injEq] at h
      rw [← h, htr]
  | cons r0 rest =>
    rw [htr] at h
    simp only [Option.some.injEq] at h
    rw [← h]
    simp

/-- On a rectangular table the whole normalization is just the fill/relabel
pass: the suppression step never removes a row. -/
theorem normalizeTable_eq_fill (t : Table)
    (hrect : ∀ r ∈ t.rows, r.length = t.columns.length) :
    normalizeTable t = fillAndRelabel t := by
  unfold normalizeTable
  cases hf : fillAndRelabel t with
  | none => rfl
  | some u => simp [suppress_fillAndRelabel t u hrect hf]

theorem topNRows_none (s : String) : topNRows none s = s := rfl

theorem sortRows_none (s : String) : sortRows none s = s := rfl

theorem sortRows_some (si : SortInfo) (s : String) :
    sortRows (some si) s =
      if optTruthy si.measure = true then
        if pyStarts s "NON EMPTY" = true then
          "NON EMPTY ORDER(" ++ (pyReplace s "NON EMPTY " "" ++
            (", [Measures].[" ++ (si.measure.getD "" ++ ("], " ++ (si.direction.toUpper ++ ")")))))
        else
          "ORDER(" ++ (s ++ (", [Measures].[" ++ (si.measure.getD "" ++
            ("], " ++ (si.direction.toUpper ++ ")")))))
      else s := rfl

theorem isPre_head_ne (a b : Char) (as bs : List Char) (h : (a == b) = false) :
    isPre (a :: as) (b :: bs) = false := by
  simp [isPre, h]

/-- The row-axis base string always starts with `"NON EMPTY"` (no space). -/
theorem rowsStrBase_starts (drill_info : Option DrillInfo) (show_hide : Option ShowHide)
    (dims : List DimRef) :
    pyStarts (rowsStrBase drill_info show_hide dims) "NON EMPTY" = true := by
  apply pyStarts_append "NON EMPTY" _ (" " ++ rowsInner drill_info show_hide dims)
  unfold rowsStrBase
  rw [str_data_append, str_data_append]
  rw [show ("NON EMPTY " : String).data = "NON EMPTY".data ++ [' '] from rfl]
  simp

/-! ## Claim theorems -/

/-- C9: when both the row-dimension list and the column-dimension list are
empty, `build_mdx_query` returns no query text, and the `/api/query` endpoint
hands no query to `execute_mdx`. -/
theorem empty_axes_rejected (measures : List String) (filters : List FilterSpec)
    (drill_info : Option DrillInfo) (sort_info : Option SortInfo)
    (top_n : Option TopNSpec) (show_hide : Option ShowHide)
    (cf : Option Unit) (aggregation_level : Option AggLevel) :
    build_mdx_query [] [] measures filters drill_info sort_info top_n show_hide
      cf aggregation_level = none
    ∧ executedQueries [] [] measures filters drill_info sort_info top_n show_hide
      cf aggregation_level = [] := by
  constructor
  · unfold build_mdx_query
    simp
  · unfold executedQueries build_mdx_query
    simp

/-- C8 counterexample: a dimension reference with pinned member `5` and a
matching drill-down at member `7` resolves to the pinned member on the row
axis but to the drill navigation on the column axis — the two axes do NOT
resolve identically. -/
theorem axis_resolution_differs :
    resolveRowDim (some ⟨"Dim Store", some "7", "down"⟩) ⟨"Dim Store", "City ID", some "5"⟩
      = "[Dim Store].[City ID].&[5]"
    ∧ resolveColDim (some ⟨"Dim Store", some "7", "down"⟩) ⟨"Dim Store", "City ID", some "5"⟩
      = "[Dim Store].[City ID].&[7].CHILDREN"
    ∧ (resolveRowDim (some ⟨"Dim Store", some "7", "down"⟩) ⟨"Dim Store", "City ID", some "5"⟩
      == resolveColDim (some ⟨"Dim Store", some "7", "down"⟩) ⟨"Dim Store", "City ID", some "5"⟩)
      = false := by
  refine ⟨by decide, by decide, by decide⟩

/-- C8 amended: row and column resolution agree except when a reference
carries a truthy pinned member AND a `DrillSpec` targets its dimension; in
that case the row axis uses the pinned-member expression while the column
axis uses the drill-navigation expression. -/
theorem axis_resolution_precedence (drill_info : Option DrillInfo) (d : DimRef) :
    ((optTruthy d.member = false ∨ ∀ di, drill_info = some di → di.dimension ≠ d.dimension) →
      resolveRowDim drill_info d = resolveColDim drill_info d)
    ∧ (∀ di, drill_info = some di → di.dimension = d.dimension → optTruthy d.member = true →
      resolveRowDim drill_info d
        = "[" ++ d.dimension ++ "].[" ++ d.level ++ "].&[" ++ d.member.getD "" ++ "]"
      ∧ resolveColDim drill_info d = drillExprFor di d.dimension d.level) := by
  constructor
  · intro h
    unfold resolveRowDim resolveColDim
    cases drill_info with
    | none => rfl
    | some di =>
      by_cases hdim : di.dimension = d.dimension
      · cases h with
        | inl hm => simp [hm]
        | inr hmatch => exact absurd hdim (hmatch di rfl)
      · by_cases hm : optTruthy d.member = true
        · simp [hm, hdim]
        · simp [hm, hdim]
  · intro di hdi hdim hm
    subst hdi
    unfold resolveRowDim resolveColDim
    simp [hm, hdim]

/-- C8 amended witness at concrete inputs. -/
theorem axis_resolution_precedence_witness :
    resolveRowDim (some ⟨"Dim Store", some "7", "down"⟩) ⟨"Dim Store", "Store ID", some "9"⟩
      = "[" ++ "Dim Store" ++ "].[" ++ "Store ID" ++ "].&[" ++ (some "9").getD "" ++ "]"
    ∧ resolveColDim (some ⟨"Dim Store", some "7", "down"⟩) ⟨"Dim Store", "Store ID", some "9"⟩
      = drillExprFor ⟨"Dim Store", some "7", "down"⟩ "Dim Store" "Store ID" := by
  exact (axis_resolution_precedence (some ⟨"Dim Store", some "7", "down"⟩)
    ⟨"Dim Store", "Store ID", some "9"⟩).2 ⟨"Dim Store", some "7", "down"⟩ rfl rfl (by decide)

/-- C3 counterexample: a row axis replaced by an explicit show/hide member
list is STILL wrapped in `NON EMPTY` (claim says no non-empty-tuple filter is
applied to an explicit visibility list). -/
theorem visibility_rows_still_wrapped :
    rowsStr [⟨"Dim Store", "Store ID", none⟩] none none none (some ⟨some "rows", ["1"]⟩)
      = "NON EMPTY \x7b[Dim Store].[Store ID].&[1]\x7d"
    ∧ pyStarts (rowsStr [⟨"Dim Store", "Store ID", none⟩] none none none
        (some ⟨some "rows", ["1"]⟩)) "NON EMPTY " = true := by
  refine ⟨by decide, by decide⟩

/-- C3 amended: the compiler wraps the row axis with `NON EMPTY` whenever row
dimensions are present — including when the expression has been replaced by an
explicit show/hide member list — and, in the base case of no column
dimensions, the column axis is the bare measure set, which carries no
non-empty-tuple filter. -/
theorem row_axis_non_empty_wrap (dims : List DimRef) (drill_info : Option DrillInfo)
    (sort_info : Option SortInfo) (show_hide : Option ShowHide)
    (measures : List String) (hdims : dims ≠ []) :
    pyStarts (rowsStr dims drill_info sort_info none show_hide) "NON EMPTY " = true
    ∧ colsStr [] measures drill_info show_hide = measuresSet measures
    ∧ pyStarts (measuresSet measures) "NON EMPTY " = false := by
  refine ⟨?_, rfl, ?_⟩
  · unfold rowsStr
    rw [if_pos hdims, topNRows_none]
    cases sort_info with
    | none =>
      rw [sortRows_none]
      exact pyStarts_append "NON EMPTY " _ (rowsInner drill_info show_hide dims)
        (str_data_append _ _)
    | some si =>
      rw [sortRows_some]
      by_cases hm : optTruthy si.measure = true
      · rw [if_pos hm, if_pos (rowsStrBase_starts drill_info show_hide dims)]
        apply pyStarts_append "NON EMPTY " _
          ("ORDER(" ++ (pyReplace (rowsStrBase drill_info show_hide dims) "NON EMPTY " "" ++
            (", [Measures].[" ++ (si.measure.getD "" ++ ("], " ++ (si.direction.toUpper ++ ")"))))))
        rw [str_data_append, str_data_append]
        rw [show ("NON EMPTY ORDER(" : String).data = "NON EMPTY ".data ++ "ORDER(".data from rfl]
        simp
      · rw [if_neg hm]
        exact pyStarts_append "NON EMPTY " _ (rowsInner drill_info show_hide dims)
          (str_data_append _ _)
  · unfold measuresSet pyStarts
    rw [str_data_append, str_data_append]
    rw [show ("\x7b" : String).data = ['\x7b'] from rfl]
    rw [show ("NON EMPTY " : String).data = 'N' :: "ON EMPTY ".data from rfl]
    rw [List.singleton_append, List.cons_append]
    exact isPre_head_ne _ _ _ _ (by decide)

/-- C3 amended witness at concrete inputs. -/
theorem row_axis_non_empty_wrap_witness :
    pyStarts (rowsStr [⟨"Dim Store", "Store ID", none⟩] none none none
        (some ⟨some "rows", ["2"]⟩)) "NON EMPTY " = true
    ∧ colsStr [] ["Total Item Price"] none (some ⟨some "rows", ["2"]⟩)
        = measuresSet ["Total Item Price"]
    ∧ pyStarts (measuresSet ["Total Item Price"]) "NON EMPTY " = false := by
  exact row_axis_non_empty_wrap [⟨"Dim Store", "Store ID", none⟩] none none
    (some ⟨some "rows", ["2"]⟩) ["Total Item Price"] (by decide)

/-- C4: a show/hide spec with a non-empty member list targeting an axis makes
the compiled `dimension_members` of that axis consist of the explicit member
list only, regardless of any drill navigation or default resolution. -/
theorem visibility_replaces (dims : List DimRef) (last : DimRef)
    (drill_info : Option DrillInfo) (sh : ShowHide)
    (hlast : dims.getLast? = some last) (hne : sh.members ≠ []) :
    (sh.type = some "rows" →
      rowMembers drill_info (some sh) dims
        = sh.members.map (fun m =>
            "[" ++ last.dimension ++ "].[" ++ last.level ++ "].&[" ++ m ++ "]"))
    ∧ (sh.type = some "columns" →
      colMembers drill_info (some sh) dims
        = sh.members.map (fun m =>
            "[" ++ last.dimension ++ "].[" ++ last.level ++ "].&[" ++ m ++ "]")) := by
  constructor
  · intro hty
    unfold rowMembers
    rw [hlast]
    simp [hty, hne]
  · intro hty
    unfold colMembers
    rw [hlast]
    simp [hty, hne]

/-- C4 witness: a drill-down request plus a row visibility list compiles to
the visibility list only. -/
theorem visibility_replaces_witness :
    rowMembers (some ⟨"Dim Store", some "5", "down"⟩) (some ⟨some "rows", ["1", "2"]⟩)
        [⟨"Dim Store", "Store ID", some "9"⟩]
      = ["1", "2"].map (fun m => "[" ++ "Dim Store" ++ "].[" ++ "Store ID" ++ "].&[" ++ m ++ "]") := by
  exact (visibility_replaces [⟨"Dim Store", "Store ID", some "9"⟩]
    ⟨"Dim Store", "Store ID", some "9"⟩ (some ⟨"Dim Store", some "5", "down"⟩)
    ⟨some "rows", ["1", "2"]⟩ rfl (by decide)).1 rfl

/-- C6: the failing input for the row-suppression rule. After relabeling, the
mask is computed against `"Unknown"` which no longer occurs, so the
all-`"Unknown"` second row of this two-row table is NOT dropped — the code
keeps it (relabeled to `"Total"`), contradicting its own stated intent of
filtering such rows. -/
theorem all_unknown_row_survives :
    normalizeTable
      ⟨["[Dim Item].[Item ID].[MEMBER_CAPTION]", "[Measures].[Total Item Price]"],
       [[Value.str "A", Value.num 1], [Value.str "Unknown", Value.num 2]]⟩
      = some
      ⟨["[Dim Item].[Item ID].[MEMBER_CAPTION]", "[Measures].[Total Item Price]"],
       [[Value.str "A", Value.num 1], [Value.str "Total", Value.num 2]]⟩ := by
  decide

/-- C10: on a rectangular raw table the normalizer is exactly the
fill/relabel pass — the suppression mask never matches a row, so the
normalized table has exactly the rows of the raw table, in order. -/
theorem normalizer_preserves_rows (t : Table)
    (hrect : ∀ r ∈ t.rows, r.length = t.columns.length) :
    normalizeTable t = fillAndRelabel t
    ∧ ∀ u, normalizeTable t = some u →
        u.columns = t.columns ∧ u.rows.length = t.rows.length := by
  refine ⟨normalizeTable_eq_fill t hrect, ?_⟩
  intro u hu
  rw [normalizeTable_eq_fill t hrect] at hu
  exact ⟨fillAndRelabel_columns t u hu, fillAndRelabel_length t u hu⟩

theorem str_ext (a b : String) (h : a.data = b.data) : a = b :=
  congrArg String.mk h

theorem str_append_assoc (a b c : String) : (a ++ b) ++ c = a ++ (b ++ c) := by
  apply str_ext
  simp [str_data_append]

/-- C1: with non-empty row dimensions (whose `rows_str` therefore carries the
default `NON EMPTY` wrap) and a sort spec naming a measure, the ordering
operator is applied to the UNFILTERED inner row set, and `NON EMPTY` wraps
the ordered result — the output is never `ORDER(...)` applied outermost. -/
theorem sort_sees_unfiltered (dims : List DimRef) (drill_info : Option DrillInfo)
    (show_hide : Option ShowHide) (si : SortInfo) (sm : String)
    (hdims : dims ≠ []) (hm : si.measure = some sm) (hsm : sm ≠ "")
    (hno : hasSub "NON EMPTY ".data (rowsInner drill_info show_hide dims).data = false) :
    rowsStr dims drill_info (some si) none show_hide
      = "NON EMPTY " ++ ("ORDER(" ++ (rowsInner drill_info show_hide dims ++
          (", [Measures].[" ++ (sm ++ ("], " ++ (si.direction.toUpper ++ ")"))))))
    ∧ ∀ s : String, rowsStr dims drill_info (some si) none show_hide ≠ "ORDER(" ++ s := by
  have hms : optTruthy si.measure = true := by
    rw [hm]
    simp [optTruthy, hsm]
  have heq : rowsStr dims drill_info (some si) none show_hide
      = "NON EMPTY " ++ ("ORDER(" ++ (rowsInner drill_info show_hide dims ++
          (", [Measures].[" ++ (sm ++ ("], " ++ (si.direction.toUpper ++ ")")))))) := by
    unfold rowsStr
    rw [if_pos hdims, topNRows_none, sortRows_some,
        if_pos hms, if_pos (rowsStrBase_starts drill_info show_hide dims)]
    have hrepl : pyReplace (rowsStrBase drill_info show_hide dims) "NON EMPTY " ""
        = rowsInner drill_info show_hide dims := by
      unfold rowsStrBase
      exact pyReplace_strip_nonEmpty (rowsInner drill_info show_hide dims) hno
    rw [hrepl, hm]
    rw [show ("NON EMPTY ORDER(" : String) = "NON EMPTY " ++ "ORDER(" by decide]
    rw [str_append_assoc]
    rfl
  refine ⟨heq, ?_⟩
  intro s hs
  rw [heq] at hs
  have hd := congrArg String.data hs
  rw [str_data_append, str_data_append] at hd
  rw [show ("NON EMPTY " : String).data = 'N' :: "ON EMPTY ".data from rfl,
      show ("ORDER(" : String).data = 'O' :: "RDER(".data from rfl] at hd
  rw [List.cons_append, List.cons_append] at hd
  injection hd with h1 _
  exact absurd h1 (by decide)

/-- C1 witness at a concrete request. -/
theorem sort_sees_unfiltered_witness :
    rowsStr [⟨"Dim Store", "Store ID", none⟩] none
        (some ⟨some "Total Item Price", "desc"⟩) none none
      = "NON EMPTY " ++ ("ORDER(" ++ (rowsInner none none [⟨"Dim Store", "Store ID", none⟩] ++
          (", [Measures].[" ++ ("Total Item Price" ++ ("], " ++ (("desc" : String).toUpper ++ ")")))))) := by
  exact (sort_sees_unfiltered [⟨"Dim Store", "Store ID", none⟩] none none
    ⟨some "Total Item Price", "desc"⟩ "Total Item Price" (by decide) rfl (by decide) (by decide)).1

/-- C2 counterexample: a `between` filter with BOTH bounds present but no
(unrelated) `value` field is silently dropped — no range restriction is
emitted and no rejection happens; likewise a `between` missing `max_value`
is dropped while the query still compiles. -/
theorem between_silently_dropped :
    filterItem ⟨some "Dim Time", some "Year", none, "between", some "2022", some "2023"⟩ = none
    ∧ whereClause [⟨some "Dim Time", some "Year", none, "between", some "2022", some "2023"⟩] = ""
    ∧ filterItem ⟨some "Dim Time", some "Year", some "1", "between", some "2022", none⟩ = none
    ∧ (build_mdx_query [⟨"Dim Time", "Year", none⟩] [] ["Total Item Price"]
        [⟨some "Dim Time", some "Year", some "1", "between", some "2022", none⟩]
        none none none none none none).isSome = true := by
  refine ⟨by decide, by decide, by decide, by decide⟩

/-- C2 amended: a `between` filter emits the inclusive-range member-set
restriction only when `dimension`, `level`, the (otherwise unused) `value`,
`min_value` and `max_value` are ALL truthy; when `value`, `min_value` or
`max_value` is missing the filter is silently omitted from the WHERE clause
and compilation still succeeds — it is never rejected. -/
theorem between_filter_rules (f : FilterSpec) (hf : f.type = "between") :
    (optTruthy f.dimension = true → optTruthy f.level = true → optTruthy f.value = true →
      optTruthy f.min_value = true → optTruthy f.max_value = true →
      filterItem f = some ("FILTER([" ++ f.dimension.getD "" ++ "].[" ++ f.level.getD "" ++
        "].MEMBERS, [" ++ f.dimension.getD "" ++ "].[" ++ f.level.getD "" ++
        "].CURRENTMEMBER >= " ++ f.min_value.getD "" ++ " AND [" ++ f.dimension.getD "" ++
        "].[" ++ f.level.getD "" ++ "].CURRENTMEMBER <= " ++ f.max_value.getD "" ++ ")"))
    ∧ ((optTruthy f.value = false ∨ optTruthy f.min_value = false ∨ optTruthy f.max_value = false) →
      filterItem f = none)
    ∧ (∀ (rows cols : List DimRef) (measures : List String) (di : Option DrillInfo)
        (si : Option SortInfo) (tn : Option TopNSpec) (sh : Option ShowHide)
        (cf : Option Unit) (agg : Option AggLevel), rows ≠ [] →
        (build_mdx_query rows cols measures [f] di si tn sh cf agg).isSome = true) := by
  refine ⟨?_, ?_, ?_⟩
  · intro h1 h2 h3 h4 h5
    unfold filterItem
    rw [hf]
    rw [if_pos ⟨h1, h2, h3⟩]
    rw [if_neg (by decide), if_neg (by decide), if_neg (by decide), if_neg (by decide),
        if_neg (by decide), if_neg (by decide), if_pos (by decide : ("between" : String) = "between")]
    rw [if_pos ⟨h4, h5⟩]
  · intro h
    unfold filterItem
    by_cases htop : optTruthy f.dimension = true ∧ optTruthy f.level = true ∧ optTruthy f.value = true
    · rcases h with hv | hmn | hmx
      · rw [htop.2.2] at hv
        exact absurd hv (by decide)
      · rw [if_pos htop, hf]
        rw [if_neg (by decide), if_neg (by decide), if_neg (by decide), if_neg (by decide),
            if_neg (by decide), if_neg (by decide),
            if_pos (by decide : ("between" : String) = "between")]
        rw [if_neg (fun hc => by rw [hc.1] at hmn; exact absurd hmn (by decide))]
      · rw [if_pos htop, hf]
        rw [if_neg (by decide), if_neg (by decide), if_neg (by decide), if_neg (by decide),
            if_neg (by decide), if_neg (by decide),
            if_pos (by decide : ("between" : String) = "between")]
        rw [if_neg (fun hc => by rw [hc.2] at hmx; exact absurd hmx (by decide))]
    · rw [if_neg htop]
  · intro rows cols measures di si tn sh cf agg hrows
    unfold build_mdx_query
    rw [if_neg (fun hc => hrows hc.1)]
    rfl

/-- C2 amended witness at a concrete filter. -/
theorem between_filter_rules_witness :
    filterItem ⟨some "Dim Time", some "Year", some "1", "between", some "2022", some "2023"⟩
      = some ("FILTER([" ++ (some "Dim Time").getD "" ++ "].[" ++ (some "Year").getD "" ++
        "].MEMBERS, [" ++ (some "Dim Time").getD "" ++ "].[" ++ (some "Year").getD "" ++
        "].CURRENTMEMBER >= " ++ (some "2022").getD "" ++ " AND [" ++ (some "Dim Time").getD "" ++
        "].[" ++ (some "Year").getD "" ++ "].CURRENTMEMBER <= " ++ (some "2023").getD "" ++ ")") := by
  exact (between_filter_rules
    ⟨some "Dim Time", some "Year", some "1", "between", some "2022", some "2023"⟩ rfl).1
    (by decide) (by decide) (by decide) (by decide) (by decide)

/-- C5 counterexample: an explicitly EMPTY measure list is not replaced by
the default measure — the measure set renders as an empty pair of braces
and the compiled query
never mentions `Total Item Price`. -/
theorem empty_measure_list_not_defaulted :
    measuresSet [] = "\x7b\x7d"
    ∧ (build_mdx_query [⟨"Dim Store", "Store ID", none⟩] [] [] [] none none none none
        none none).isSome = true
    ∧ strHasSub ((build_mdx_query [⟨"Dim Store", "Store ID", none⟩] [] [] [] none none none none
        none none).getD "") "Total Item Price" = false := by
  exact ⟨by decide, by decide, by decide⟩

theorem mkQuery_contains (a b c p : String) (h : strHasSub a p = true) :
    strHasSub (mkQuery a b c) p = true := by
  unfold mkQuery
  exact strHasSub_append_right _ _ _ (strHasSub_append_left _ _ _ h)

theorem colsStr_contains (dims : List DimRef) (measures : List String)
    (di : Option DrillInfo) (sh : Option ShowHide) (p : String)
    (h : strHasSub (measuresSet measures) p = true) :
    strHasSub (colsStr dims measures di sh) p = true := by
  unfold colsStr
  by_cases hd : dims ≠ []
  · rw [if_pos hd]
    cases hdm : colMembers di sh dims with
    | nil =>
      simp only [hdm, ne_eq, not_true_eq_false]
      exact h
    | cons a tl =>
      simp only [hdm, ne_eq]
      rw [if_pos (by simp)]
      cases tl with
      | nil => exact strHasSub_append_right _ _ _ (strHasSub_append_left _ _ _ h)
      | cons b tl2 => exact strHasSub_append_right _ _ _ (strHasSub_append_left _ _ _ h)
  · rw [if_neg hd]
    exact h

/-- C5 amended: when the `measures` field is ABSENT from the request payload,
the `/api/query` endpoint substitutes the default measure list and the compiled
query text references the default measure. -/
theorem default_measure_on_absent (rows cols : List DimRef) (filters : List FilterSpec)
    (di : Option DrillInfo) (si : Option SortInfo) (tn : Option TopNSpec)
    (sh : Option ShowHide) (cf : Option Unit) (agg : Option AggLevel)
    (hrows : rows ≠ []) :
    requestMeasures none = ["Total Item Price"]
    ∧ ∃ q, build_mdx_query rows cols (requestMeasures none) filters di si tn sh cf agg = some q
        ∧ strHasSub q "[Measures].[Total Item Price]" = true := by
  refine ⟨rfl, ?_⟩
  unfold build_mdx_query
  rw [if_neg (fun hc => hrows hc.1)]
  refine ⟨_, rfl, ?_⟩
  apply mkQuery_contains
  apply colsStr_contains
  decide

/-- C5 amended witness at a concrete request. -/
theorem default_measure_on_absent_witness :
    requestMeasures none = ["Total Item Price"]
    ∧ strHasSub ((build_mdx_query [⟨"Dim Store", "Store ID", none⟩] [] (requestMeasures none) []
        none none none none none none).getD "") "[Measures].[Total Item Price]" = true := by
  have h := default_measure_on_absent [⟨"Dim Store", "Store ID", none⟩] [] [] none none none
    none none none (by decide)
  obtain ⟨h1, q, hq, hsub⟩ := h
  refine ⟨h1, ?_⟩
  rw [hq]
  exact hsub

theorem relabel_total_eq : relabelUnknown (Value.str "Total") = Value.str "Total" := by decide

theorem relabel_unknown_eq : relabelUnknown (Value.str "Unknown") = Value.str "Total" := by decide

/-- The cell-level description of the fill/relabel pass on a rectangular
table: row 0 goes through `normFirstCell`, later rows through `normCell`. -/
theorem cellD_norm (t u : Table)
    (hrect : ∀ r ∈ t.rows, r.length = t.columns.length)
    (hfill : fillAndRelabel t = some u)
    (j i : Nat) (hj : j < t.rows.length) (hi : i < t.columns.length) :
    cellD u j i
      = (if j = 0 then normFirstCell else normCell) (t.columns.getD i "") (cellD t j i) := by
  unfold fillAndRelabel at hfill
  cases htr : t.rows with
  | nil =>
    rw [htr] at hj
    simp at hj
  | cons r0 rest =>
    rw [htr] at hfill
    simp only [Option.some.injEq] at hfill
    have hr0len : r0.length = t.columns.length :=
      hrect r0 (htr ▸ List.mem_cons_self r0 rest)
    cases j with
    | zero =>
      simp only [if_pos rfl]
      unfold cellD
      rw [← hfill]
      simp only [List.getD_cons_zero, htr]
      exact getD_zipWith normFirstCell t.columns r0 i Value.null "" Value.null hi
        (by rw [hr0len]; exact hi)
    | succ k =>
      simp only [Nat.succ_ne_zero, if_neg]
      unfold cellD
      rw [← hfill]
      simp only [List.getD_cons_succ, htr]
      have hk : k < rest.length := by
        rw [htr] at hj
        simpa using Nat.lt_of_succ_lt_succ hj
      have hmem : rest.getD k [] ∈ t.rows := by
        rw [getD_of_lt rest k [] hk, htr]
        exact List.mem_cons_of_mem r0 (List.get_mem rest k hk)
      have hlen : (rest.getD k []).length = t.columns.length := hrect _ hmem
      rw [getD_map (fun r => List.zipWith normCell t.columns r) rest k [] [] hk]
      exact getD_zipWith normCell t.columns (rest.getD k []) i Value.null "" Value.null hi
        (by rw [hlen]; exact hi)

/-- C7: on a rectangular table the normalizer (a) replaces a null cell of a
measure column by numeric zero, (b) turns a null FIRST-row cell of a
dimension-caption column into `"Total"`, and (c) relabels every `"Unknown"`
cell of a dimension column to `"Total"`. -/
theorem normalizer_cell_rules (t u : Table)
    (hrect : ∀ r ∈ t.rows, r.length = t.columns.length)
    (h : normalizeTable t = some u) :
    (∀ j i, j < t.rows.length → i < t.columns.length →
      isMeasureCol (t.columns.getD i "") = true → cellD t j i = Value.null →
      cellD u j i = Value.num 0)
    ∧ (∀ i, i < t.columns.length →
      isMeasureCol (t.columns.getD i "") = false → capCol (t.columns.getD i "") = true →
      cellD t 0 i = Value.null →
      cellD u 0 i = Value.str "Total")
    ∧ (∀ j i, j < t.rows.length → i < t.columns.length →
      isMeasureCol (t.columns.getD i "") = false →
      cellD t j i = Value.str "Unknown" →
      cellD u j i = Value.str "Total") := by
  have hfill : fillAndRelabel t = some u := by
    rw [← normalizeTable_eq_fill t hrect]
    exact h
  refine ⟨?_, ?_, ?_⟩
  · intro j i hj hi hmc hv
    rw [cellD_norm t u hrect hfill j i hj hi, hv]
    by_cases hj0 : j = 0
    · rw [if_pos hj0]
      unfold normFirstCell
      rw [if_pos hmc]
      rfl
    · rw [if_neg hj0]
      unfold normCell
      rw [if_pos hmc]
      rfl
  · intro i hi hmc hcap hv
    cases htr : t.rows with
    | nil =>
      exfalso
      unfold fillAndRelabel at hfill
      rw [htr] at hfill
      have hmem : t.columns.getD i "" ∈ t.columns := by
        rw [getD_of_lt t.columns i "" hi]
        exact List.get_mem t.columns i hi
      have hprop : (!(isMeasureCol (t.columns.getD i "")) && capCol (t.columns.getD i "")) = true := by
        rw [hmc, hcap]
        rfl
      have hany : t.columns.any (fun c => !(isMeasureCol c) && capCol c) = true :=
        List.any_eq_true.mpr ⟨t.columns.getD i "", hmem, hprop⟩
      simp [hany] at hfill
    | cons r0 rest =>
      have hj : 0 < t.rows.length := by
        rw [htr]
        simp
      rw [cellD_norm t u hrect hfill 0 i hj hi, hv]
      rw [if_pos rfl]
      unfold normFirstCell
      rw [if_neg (by rw [hmc]; decide), if_pos ⟨hcap, rfl⟩, relabel_total_eq]
  · intro j i hj hi hmc hv
    rw [cellD_norm t u hrect hfill j i hj hi, hv]
    by_cases hj0 : j = 0
    · rw [if_pos hj0]
      unfold normFirstCell
      rw [if_neg (by rw [hmc]; decide),
          if_neg (fun hc => Value.noConfusion hc.2), relabel_unknown_eq]
    · rw [if_neg hj0]
      unfold normCell
      rw [if_neg (by rw [hmc]; decide), relabel_unknown_eq]

/-- C7 witness on the documentation scenario table. -/
theorem normalizer_cell_rules_witness :
    cellD ⟨["[Measures].[Total Item Price]", "[Dim Item].[Item ID].[MEMBER_CAPTION]"],
           [[Value.num 0, Value.str "Total"], [Value.num 120, Value.str "Total"]]⟩ 0 0
      = Value.num 0
    ∧ cellD ⟨["[Measures].[Total Item Price]", "[Dim Item].[Item ID].[MEMBER_CAPTION]"],
           [[Value.num 0, Value.str "Total"], [Value.num 120, Value.str "Total"]]⟩ 0 1
      = Value.str "Total"
    ∧ cellD ⟨["[Measures].[Total Item Price]", "[Dim Item].[Item ID].[MEMBER_CAPTION]"],
           [[Value.num 0, Value.str "Total"], [Value.num 120, Value.str "Total"]]⟩ 1 1
      = Value.str "Total" := by
  have h := normalizer_cell_rules
    ⟨["[Measures].[Total Item Price]", "[Dim Item].[Item ID].[MEMBER_CAPTION]"],
     [[Value.null, Value.null], [Value.num 120, Value.str "Unknown"]]⟩
    ⟨["[Measures].[Total Item Price]", "[Dim Item].[Item ID].[MEMBER_CAPTION]"],
     [[Value.num 0, Value.str "Total"], [Value.num 120, Value.str "Total"]]⟩
    (by decide) (by decide)
  exact ⟨h.1 0 0 (by decide) (by decide) (by decide) (by decide),
         h.2.1 1 (by decide) (by decide) (by decide) (by decide),
         h.2.2 1 1 (by decide) (by decide) (by decide) (by decide)⟩

/-- C10 witness on a table containing an all-`"Unknown"` row. -/
theorem normalizer_preserves_rows_witness :
    normalizeTable
      ⟨["[Dim Time].[Year].[MEMBER_CAPTION]", "[Measures].[Quantity Sale]"],
       [[Value.str "Unknown", Value.null], [Value.str "2023", Value.num 7]]⟩
      = fillAndRelabel
      ⟨["[Dim Time].[Year].[MEMBER_CAPTION]", "[Measures].[Quantity Sale]"],
       [[Value.str "Unknown", Value.null], [Value.str "2023", Value.num 7]]⟩ := by
  exact (normalizer_preserves_rows
    ⟨["[Dim Time].[Year].[MEMBER_CAPTION]", "[Measures].[Quantity Sale]"],
     [[Value.str "Unknown", Value.null], [Value.str "2023", Value.num 7]]⟩ (by decide)).1

end SSAS
